import Mathlib

/-!
Verification of `gentext.py`, a GenBank-summary generator.

The logical core of the program is embedded shallowly:
* `calc_gc` — GC-content percentage, exact rational arithmetic in place of
  Python floats (the source formula is exact rational division scaled by 100);
* `extract_gene_info` — the feature classification / naming / sorting loop;
* `generate_manuscript_summary` — the three-paragraph template renderer
  (numeric formatting `{:,}` and `{:.2f}` modelled exactly over `ℚ`);
* `combineSummaries` / `load_file` — the multi-record batch driver and the
  display update of the load action, with exceptions modelled by `Except`.

Strings are Lean `String`s (logically `List Char`); the two regular
expressions of the source (`tRNA-([A-Za-z]+)` and the case-insensitive
substring searches `16S|large`, `12S|small`) are embedded as explicit
left-to-right scanning functions with the same semantics.
-/

/-- ASCII letter, the character class `[A-Za-z]` of the source regex. -/
def isAsciiLetter (c : Char) : Bool :=
  ('A' ≤ c && c ≤ 'Z') || ('a' ≤ c && c ≤ 'z')

/-- Maximal run of ASCII letters at the head of a character list:
the greedy `[A-Za-z]+` match (empty when no letter leads). -/
def takeLetters : List Char → List Char
  | [] => []
  | c :: cs => if isAsciiLetter c then c :: takeLetters cs else []

/-- `begWith p s` : `p` is an initial segment of `s`. -/
def begWith : List Char → List Char → Bool
  | [], _ => true
  | _ :: _, [] => false
  | p :: ps, c :: cs => p == c && begWith ps cs

/-- `hasSub p s` : `p` occurs as a contiguous substring of `s`
(the semantics of `re.search` for a literal-alternative pattern). -/
def hasSub (p : List Char) : List Char → Bool
  | [] => begWith p []
  | c :: cs => begWith p (c :: cs) || hasSub p cs

/-- Number of positions of `s` at which `p` matches (occurrence count). -/
def subCount (p : List Char) : List Char → Nat
  | [] => if begWith p [] then 1 else 0
  | c :: cs => (if begWith p (c :: cs) then 1 else 0) + subCount p cs

/-- Split a character list into its lines at `'\n'` (as `str.split("\n")`). -/
def linesOf : List Char → List (List Char)
  | [] => [[]]
  | c :: cs =>
    let r := linesOf cs
    if c = '\n' then [] :: r
    else (c :: r.headD []) :: r.tail

/-- `sep.join(ss)` of Python: elements interleaved with `sep`, empty for `[]`. -/
def joinSep (sep : String) : List String → String
  | [] => ""
  | [s] => s
  | s :: rest => s ++ sep ++ joinSep sep rest

/-- A feature of a parsed GenBank record: its type tag (`feat.type`), its
start coordinate (`int(feat.location.start)`), and its qualifier mapping
(`feat.qualifiers`, a key → list-of-values dictionary). -/
structure Feature where
  type : String
  start : Nat
  qualifiers : List (String × List String)
deriving DecidableEq

/-- A parsed GenBank record: identifier, nucleotide sequence, features. -/
structure Record where
  id : String
  seq : List Char
  features : List Feature
deriving DecidableEq

/-- One entry of the working gene list: `{'pos': ..., 'name': ...}`. -/
structure GeneEntry where
  pos : Nat
  name : String
deriving DecidableEq

/-- The counts dictionary `{'CDS':..., 'tRNA':..., 'rRNA':...}`. -/
structure Counts where
  cds : Nat
  trna : Nat
  rrna : Nat
deriving DecidableEq

/-- The extractor result `{'counts':..., 'ordered':..., 'total':...}`. -/
structure GeneInfo where
  counts : Counts
  ordered : List GeneEntry
  total : Nat
deriving DecidableEq

/-- `calc_gc` (gentext.py lines 12–15): uppercase the sequence, count `G`
and `C`, return `(gc / len) * 100`, and `0.0` for the empty sequence. -/
def calc_gc (seq : List Char) : ℚ :=
  let s := seq.map Char.toUpper
  let gc : Nat := s.count 'G' + s.count 'C'
  if s.length ≠ 0 then ((gc : ℚ) / (s.length : ℚ)) * 100 else 0

/-- First value stored under key `k` in a qualifier mapping
(`dict.get`: `none` when the key is absent). -/
def qualLookup (q : List (String × List String)) (k : String) : Option (List String) :=
  (q.find? (fun p => p.1 == k)).map Prod.snd

/-- Name derivation (gentext.py lines 25–27):
`(feat.qualifiers.get('gene') or feat.qualifiers.get('product') or [ft])[0]`.
Python's `or` skips a key that is absent or maps to an empty list. -/
def deriveName (ft : String) (q : List (String × List String)) : String :=
  match qualLookup q "gene" with
  | some (v :: _) => v
  | _ =>
    match qualLookup q "product" with
    | some (v :: _) => v
    | _ => ft

/-- Try the regex `tRNA-([A-Za-z]+)` anchored at the head of `s`:
on success return the (nonempty, greedy) capture group. -/
def trnaAt (s : List Char) : Option (List Char) :=
  match s with
  | 't' :: 'R' :: 'N' :: 'A' :: '-' :: rest =>
    if takeLetters rest = [] then none else some (takeLetters rest)
  | _ => none

/-- `re.search(r'tRNA-([A-Za-z]+)', s)`: scan positions left to right,
return the capture group of the first position that matches. -/
def searchTRNA : List Char → Option (List Char)
  | [] => none
  | c :: cs =>
    match trnaAt (c :: cs) with
    | some g => some g
    | none => searchTRNA cs

/-- tRNA renaming (gentext.py lines 28–31): if `tRNA-<letters>` occurs in
the name, the name becomes `<letters>-tRNA`; otherwise it is unchanged. -/
def fixTRNAName (name : String) : String :=
  match searchTRNA name.data with
  | some g => String.mk g ++ "-tRNA"
  | none => name

/-- rRNA renaming (gentext.py lines 32–36): case-insensitive search for
`16S|large`, then (only if that failed) for `12S|small`. -/
def fixRRNAName (name : String) : String :=
  let low := name.data.map Char.toLower
  if hasSub "16s".data low || hasSub "large".data low then "16S-rRNA"
  else if hasSub "12s".data low || hasSub "small".data low then "12S-rRNA"
  else name

/-- Membership test `ft in counts` on the dict of line 18. -/
def recognizedType (ft : String) : Bool :=
  ft == "CDS" || ft == "tRNA" || ft == "rRNA"

/-- `counts[ft] += 1` for the recognized type tags. -/
def bumpCount (c : Counts) (ft : String) : Counts :=
  if ft == "CDS" then ⟨c.cds + 1, c.trna, c.rrna⟩
  else if ft == "tRNA" then ⟨c.cds, c.trna + 1, c.rrna⟩
  else if ft == "rRNA" then ⟨c.cds, c.trna, c.rrna + 1⟩
  else c

/-- The display name of one recognized feature: derive, then apply the
type-conditional tRNA / rRNA renaming of lines 28–36. -/
def featureName (f : Feature) : String :=
  let name0 := deriveName f.type f.qualifiers
  let name1 := if f.type == "tRNA" then fixTRNAName name0 else name0
  if f.type == "rRNA" then fixRRNAName name1 else name1

/-- One iteration of the feature loop (lines 20–37): skip unrecognized
types, otherwise bump the count and append the gene entry. -/
def extractStep (acc : Counts × List GeneEntry) (f : Feature) : Counts × List GeneEntry :=
  if recognizedType f.type then
    (bumpCount acc.1 f.type, acc.2 ++ [⟨f.start, featureName f⟩])
  else acc

/-- Insert an entry into a list, before the first entry of position ≥ its
own: the insertion step of a stable sort by `pos`. -/
def insertEntry (g : GeneEntry) : List GeneEntry → List GeneEntry
  | [] => [g]
  | h :: t => if g.pos ≤ h.pos then g :: h :: t else h :: insertEntry g t

/-- Stable sort by `pos` ascending: `genes.sort(key=lambda g: g['pos'])`
(Python `list.sort` is stable; any stable sort by the key agrees with it). -/
def sortEntries : List GeneEntry → List GeneEntry
  | [] => []
  | g :: t => insertEntry g (sortEntries t)

/-- The working gene list of `extract_gene_info` before the sort, built in
input encounter order, with the counts accumulated alongside. -/
def extractFold (fs : List Feature) : Counts × List GeneEntry :=
  fs.foldl extractStep (⟨0, 0, 0⟩, [])

/-- `extract_gene_info` (gentext.py lines 17–40). -/
def extract_gene_info (r : Record) : GeneInfo :=
  let res := extractFold r.features
  { counts := res.1
    ordered := sortEntries res.2
    total := res.1.cds + res.1.trna + res.1.rrna }

/-- Thousands grouping on a reversed digit list: a comma after every three
digits (working from the least significant end). -/
def commaRev : List Char → List Char
  | a :: b :: c :: d :: rest => a :: b :: c :: ',' :: commaRev (d :: rest)
  | l => l

/-- Python's `f"{n:,}"` for a natural number. -/
def fmtComma (n : Nat) : String :=
  String.mk (commaRev (Nat.toDigits 10 n).reverse).reverse

/-- Round to the nearest integer, ties to even (the rounding of Python's
fixed-point float formatting). -/
def roundHalfEven (x : ℚ) : ℤ :=
  let f := x.floor
  if x - f < 1 / 2 then f
  else if 1 / 2 < x - f then f + 1
  else if f % 2 = 0 then f else f + 1

/-- Python's `f"{x:.2f}"` for a nonnegative quantity: two decimal places. -/
def fmt2f (x : ℚ) : String :=
  let n := (roundHalfEven (x * 100)).toNat
  Nat.repr (n / 100) ++ "." ++
    (if n % 100 < 10 then "0" else "") ++ Nat.repr (n % 100)

/-- `generate_manuscript_summary` (gentext.py lines 42–66): the three
hardcoded paragraphs joined by a blank line. -/
def generate_manuscript_summary (record : Record) (info : GeneInfo) : String :=
  let L := record.seq.length
  let gc := calc_gc record.seq
  let c := info.counts
  let names := info.ordered.map GeneEntry.name
  let p1 :=
    "In the present study, we report the sequence of " ++ record.id ++
    ", which spans " ++ fmtComma L ++
    " base pairs and exhibits a GC content of " ++ fmt2f gc ++ "%."
  let p2 :=
    "Automated annotation identified " ++ Nat.repr c.cds ++
    " protein-coding sequences (CDSs), " ++ Nat.repr c.trna ++
    " transfer RNA genes, and " ++ Nat.repr c.rrna ++
    " ribosomal RNA genes, for a total of " ++ Nat.repr info.total ++
    " functional gene features. This gene complement is consistent with " ++
    "values reported for similar taxa."
  let p3 :=
    "Analysis of gene synteny revealed the following linear arrangement: " ++
    joinSep "; " names ++
    ". Notably, the clustering of rRNA genes suggests conservation of " ++
    "the ribosomal operon structure."
  joinSep "\n\n" [p1, p2, p3]

/-- The separator `"="*80` of gentext.py line 101. -/
def sepLine : String := String.mk (List.replicate 80 '=')

/-- The record loop of `load_file` (gentext.py lines 95–101): summarise each
record, raise `ValueError("No records found in file.")` when there are none,
otherwise emit `"\n\n" + ("="*80 + "\n\n").join(summaries)`. -/
def combineSummaries (records : List Record) : Except String String :=
  let summaries := records.map (fun r => generate_manuscript_summary r (extract_gene_info r))
  if summaries.isEmpty then Except.error "No records found in file."
  else Except.ok ("\n\n" ++ joinSep (sepLine ++ "\n\n") summaries)

/-- The whole `try` block of `load_file` (gentext.py lines 93–101): a
parser failure propagates, otherwise the records are summarised and
combined.  The parser is external; its outcome is the `Except` argument. -/
def processFile (parseResult : Except String (List Record)) : Except String String :=
  match parseResult with
  | Except.error e => Except.error e
  | Except.ok records => combineSummaries records

/-- The load action (gentext.py lines 93–104) after file selection: the
result is the new display text together with the error-dialog message, if
any.  The display is appended to only when every record was summarised
successfully; on any failure the `except` arm shows a dialog instead. -/
def load_file (parseResult : Except String (List Record)) (display : String) :
    String × Option String :=
  match processFile parseResult with
  | Except.error e => (display, some ("Failed to process file:\n" ++ e))
  | Except.ok out => (display ++ out, none)

/-- Character counted by `calc_gc`: `G` or `C` in either case. -/
def isGCChar (c : Char) : Bool := c.toUpper == 'G' || c.toUpper == 'C'

/-- The specification-level reading of the tRNA regex: the literal `tRNA-`
followed by at least one ASCII letter occurs somewhere in the text. -/
def tRNAOccurs (s : List Char) : Prop :=
  ∃ a c b, s = a ++ 't' :: 'R' :: 'N' :: 'A' :: '-' :: c :: b ∧ isAsciiLetter c = true

/-- The specification-level reading of a case-insensitive substring search:
`pat` (given in lowercase) occurs in the lowercased text. -/
def ContainsCI (pat s : String) : Prop :=
  ∃ a b, s.data.map Char.toLower = a ++ pat.data ++ b

/-- `pat` occurs as a contiguous substring of `s`. -/
def StrContains (pat s : String) : Prop :=
  ∃ a b : String, s = a ++ pat ++ b

/-- A 1,000-base sequence of 50% GC content, for the renderer example. -/
def exSeq1000 : List Char := List.replicate 500 'G' ++ List.replicate 500 'A'

/-- The renderer-example record of C7: 1,000 bases, GC 50%. -/
def exRecord1000 : Record := ⟨"EX1", exSeq1000, []⟩

/-- The renderer-example gene info of C7: CDS=2, tRNA=1, rRNA=1, total 4,
ordered names `A`, `16S-rRNA`, `Leu-tRNA`, `B`. -/
def exInfo : GeneInfo :=
  ⟨⟨2, 1, 1⟩, [⟨10, "A"⟩, ⟨20, "16S-rRNA"⟩, ⟨30, "Leu-tRNA"⟩, ⟨40, "B"⟩], 4⟩

/-- A minimal concrete record for the batch-driver example. -/
def exRecA : Record := ⟨"r1", ['A'], []⟩

/-- A second minimal concrete record for the batch-driver example. -/
def exRecB : Record := ⟨"r2", ['C'], []⟩

/-! ### Facts about the feature loop -/

theorem extractStep_snd (acc : Counts × List GeneEntry) (f : Feature) :
    (extractStep acc f).2 =
      acc.2 ++ if recognizedType f.type then [⟨f.start, featureName f⟩] else [] := by
  unfold extractStep
  split <;> simp_all

theorem extractStep_fst_cds (acc : Counts × List GeneEntry) (f : Feature) :
    ((extractStep acc f).1).cds = acc.1.cds + if f.type == "CDS" then 1 else 0 := by
  unfold extractStep recognizedType bumpCount
  by_cases h1 : f.type = "CDS" <;> by_cases h2 : f.type = "tRNA" <;>
    by_cases h3 : f.type = "rRNA" <;> simp_all

theorem extractStep_fst_trna (acc : Counts × List GeneEntry) (f : Feature) :
    ((extractStep acc f).1).trna = acc.1.trna + if f.type == "tRNA" then 1 else 0 := by
  unfold extractStep recognizedType bumpCount
  by_cases h1 : f.type = "CDS" <;> by_cases h2 : f.type = "tRNA" <;>
    by_cases h3 : f.type = "rRNA" <;> simp_all

theorem extractStep_fst_rrna (acc : Counts × List GeneEntry) (f : Feature) :
    ((extractStep acc f).1).rrna = acc.1.rrna + if f.type == "rRNA" then 1 else 0 := by
  unfold extractStep recognizedType bumpCount
  by_cases h1 : f.type = "CDS" <;> by_cases h2 : f.type = "tRNA" <;>
    by_cases h3 : f.type = "rRNA" <;> simp_all

theorem foldl_extractStep_snd : ∀ (l : List Feature) (acc : Counts × List GeneEntry),
    (l.foldl extractStep acc).2 =
      acc.2 ++ (l.filter (fun f => recognizedType f.type)).map
                 (fun f => ⟨f.start, featureName f⟩)
  | [], acc => by simp
  | f :: t, acc => by
    rw [List.foldl_cons, foldl_extractStep_snd t, extractStep_snd, List.filter_cons]
    by_cases h : recognizedType f.type <;> simp [h]

theorem foldl_extractStep_cds : ∀ (l : List Feature) (acc : Counts × List GeneEntry),
    ((l.foldl extractStep acc).1).cds = acc.1.cds + l.countP (fun f => f.type == "CDS")
  | [], acc => by simp
  | f :: t, acc => by
    rw [List.foldl_cons, foldl_extractStep_cds t, extractStep_fst_cds, List.countP_cons]
    omega

theorem foldl_extractStep_trna : ∀ (l : List Feature) (acc : Counts × List GeneEntry),
    ((l.foldl extractStep acc).1).trna = acc.1.trna + l.countP (fun f => f.type == "tRNA")
  | [], acc => by simp
  | f :: t, acc => by
    rw [List.foldl_cons, foldl_extractStep_trna t, extractStep_fst_trna, List.countP_cons]
    omega

theorem foldl_extractStep_rrna : ∀ (l : List Feature) (acc : Counts × List GeneEntry),
    ((l.foldl extractStep acc).1).rrna = acc.1.rrna + l.countP (fun f => f.type == "rRNA")
  | [], acc => by simp
  | f :: t, acc => by
    rw [List.foldl_cons, foldl_extractStep_rrna t, extractStep_fst_rrna, List.countP_cons]
    omega

theorem countP_recognized_split (l : List Feature) :
    l.countP (fun f => recognizedType f.type) =
      l.countP (fun f => f.type == "CDS") + l.countP (fun f => f.type == "tRNA") +
        l.countP (fun f => f.type == "rRNA") := by
  induction l with
  | nil => simp
  | cons f t ih =>
    simp only [List.countP_cons, ih]
    have hsplit : (if recognizedType f.type = true then 1 else 0) =
        (if (f.type == "CDS") = true then 1 else 0) +
          ((if (f.type == "tRNA") = true then 1 else 0) +
            (if (f.type == "rRNA") = true then 1 else 0)) := by
      unfold recognizedType
      by_cases h1 : f.type = "CDS" <;> by_cases h2 : f.type = "tRNA" <;>
        by_cases h3 : f.type = "rRNA" <;> simp_all
    omega

/-! ### Facts about the stable sort -/

theorem mem_insertEntry (g x : GeneEntry) : ∀ l, x ∈ insertEntry g l ↔ x = g ∨ x ∈ l
  | [] => by simp [insertEntry]
  | h :: t => by
    unfold insertEntry
    split
    · simp [or_comm, or_left_comm]
    · simp [mem_insertEntry g x t, or_comm, or_left_comm]

theorem pairwise_insertEntry (g : GeneEntry) :
    ∀ l, List.Pairwise (fun a b : GeneEntry => a.pos ≤ b.pos) l →
      List.Pairwise (fun a b : GeneEntry => a.pos ≤ b.pos) (insertEntry g l)
  | [], _ => by simp [insertEntry]
  | h :: t, hp => by
    rw [List.pairwise_cons] at hp
    unfold insertEntry
    split
    · rename_i hle
      refine List.pairwise_cons.mpr ⟨?_, List.pairwise_cons.mpr hp⟩
      intro x hx
      rcases List.mem_cons.mp hx with rfl | hxt
      · exact hle
      · exact le_trans hle (hp.1 x hxt)
    · rename_i hgt
      refine List.pairwise_cons.mpr ⟨?_, pairwise_insertEntry g t hp.2⟩
      intro x hx
      rcases (mem_insertEntry g x t).mp hx with rfl | hxt
      · omega
      · exact hp.1 x hxt

theorem sorted_sortEntries :
    ∀ l, List.Pairwise (fun a b : GeneEntry => a.pos ≤ b.pos) (sortEntries l)
  | [] => by simp [sortEntries]
  | g :: t => pairwise_insertEntry g (sortEntries t) (sorted_sortEntries t)

theorem filter_insertEntry (g : GeneEntry) (p : Nat) :
    ∀ l, (insertEntry g l).filter (fun e => e.pos == p) =
      (if g.pos == p then [g] else []) ++ l.filter (fun e => e.pos == p)
  | [] => by simp [insertEntry, List.filter_cons]
  | h :: t => by
    unfold insertEntry
    split
    · simp [List.filter_cons]
      split <;> split <;> simp_all
    · rename_i hgt
      rw [List.filter_cons, filter_insertEntry g p t, List.filter_cons]
      by_cases hgp : g.pos = p
      · have hhp : ¬ h.pos = p := by omega
        simp [hgp, hhp]
      · simp [hgp]

theorem filter_sortEntries (p : Nat) :
    ∀ l, (sortEntries l).filter (fun e => e.pos == p) = l.filter (fun e => e.pos == p)
  | [] => by simp [sortEntries]
  | g :: t => by
    rw [sortEntries, filter_insertEntry, filter_sortEntries p t, List.filter_cons]
    by_cases hgp : g.pos = p <;> simp [hgp]

theorem length_insertEntry (g : GeneEntry) :
    ∀ l, (insertEntry g l).length = l.length + 1
  | [] => by simp [insertEntry]
  | h :: t => by
    unfold insertEntry
    split
    · simp
    · simp [length_insertEntry g t]

theorem length_sortEntries : ∀ l, (sortEntries l).length = l.length
  | [] => rfl
  | g :: t => by rw [sortEntries, length_insertEntry, length_sortEntries t]; rfl

theorem countP_gc_split (s : List Char) :
    s.countP (fun c => c.toUpper == 'G') + s.countP (fun c => c.toUpper == 'C') =
      s.countP isGCChar := by
  induction s with
  | nil => simp
  | cons c t ih =>
    simp only [List.countP_cons, isGCChar]
    by_cases hG : c.toUpper = 'G'
    · have hC : ¬ c.toUpper = 'C' := by simp [hG]
      simp [hG, hC]; omega
    · by_cases hC : c.toUpper = 'C' <;> simp [hG, hC] <;> omega

theorem count_toUpper (a : Char) (s : List Char) :
    (s.map Char.toUpper).count a = s.countP (fun c => c.toUpper == a) := by
  rw [List.count, List.countP_map]
  rfl

/-- C2. `calc_gc` returns `100 * (#G + #C) / length` with `G`/`C` counted
case-insensitively and all other symbols counted only in the length, and it
returns `0` on the empty sequence.  (The division-by-zero guard of the source
coincides with rational division-by-zero being zero, so the formula also
covers the empty case.) -/
theorem calc_gc_spec (s : List Char) :
    calc_gc s = 100 * (s.countP isGCChar : ℚ) / (s.length : ℚ) ∧ calc_gc [] = 0 := by
  constructor
  · unfold calc_gc
    simp only [List.length_map]
    by_cases h : s.length = 0
    · rw [List.length_eq_zero] at h
      subst h
      simp
    · simp only [h, if_neg, ne_eq, not_false_iff, if_pos]
      rw [count_toUpper, count_toUpper, countP_gc_split, div_mul_eq_mul_div, mul_comm]
  · rfl

/-- C1. The extractor's counts are exactly the numbers of features typed
`CDS`, `tRNA`, `rRNA`; `total` is their sum; the ordered list is determined
by the recognized features alone (one entry per recognized feature, in input
order before sorting), so unrecognized types contribute nothing. -/
theorem extract_counts_spec (r : Record) :
    (extract_gene_info r).counts.cds =
        (r.features.filter (fun f => f.type == "CDS")).length
  ∧ (extract_gene_info r).counts.trna =
        (r.features.filter (fun f => f.type == "tRNA")).length
  ∧ (extract_gene_info r).counts.rrna =
        (r.features.filter (fun f => f.type == "rRNA")).length
  ∧ (extract_gene_info r).total =
        (extract_gene_info r).counts.cds + (extract_gene_info r).counts.trna +
          (extract_gene_info r).counts.rrna
  ∧ (extract_gene_info r).ordered =
        sortEntries ((r.features.filter (fun f => recognizedType f.type)).map
          (fun f => ⟨f.start, featureName f⟩))
  ∧ (extract_gene_info r).ordered.length = (extract_gene_info r).total := by
  have hc := foldl_extractStep_cds r.features (⟨0, 0, 0⟩, [])
  have ht := foldl_extractStep_trna r.features (⟨0, 0, 0⟩, [])
  have hr := foldl_extractStep_rrna r.features (⟨0, 0, 0⟩, [])
  have hs := foldl_extractStep_snd r.features (⟨0, 0, 0⟩, [])
  simp only [List.nil_append] at hs
  refine ⟨?_, ?_, ?_, rfl, ?_, ?_⟩
  · simp only [extract_gene_info, extractFold]
    rw [hc, List.countP_eq_length_filter]
    simp
  · simp only [extract_gene_info, extractFold]
    rw [ht, List.countP_eq_length_filter]
    simp
  · simp only [extract_gene_info, extractFold]
    rw [hr, List.countP_eq_length_filter]
    simp
  · simp only [extract_gene_info, extractFold]
    rw [hs]
  · simp only [extract_gene_info, extractFold]
    rw [hs, length_sortEntries, List.length_map, ← List.countP_eq_length_filter,
      countP_recognized_split, hc, ht, hr]
    simp

/-- C6. The extractor's ordered list is non-decreasing in `pos`, and the
sort is stable: for every position value, the entries carrying it appear in
the same order as in the unsorted working list, which itself lists the
recognized features in input encounter order. -/
theorem extract_sorted_stable_spec (r : Record) :
    List.Pairwise (fun a b : GeneEntry => a.pos ≤ b.pos) (extract_gene_info r).ordered
  ∧ (∀ p : Nat, (extract_gene_info r).ordered.filter (fun e => e.pos == p) =
        (extractFold r.features).2.filter (fun e => e.pos == p))
  ∧ (extractFold r.features).2 =
        (r.features.filter (fun f => recognizedType f.type)).map
          (fun f => ⟨f.start, featureName f⟩) := by
  have hs := foldl_extractStep_snd r.features (⟨0, 0, 0⟩, [])
  simp only [List.nil_append] at hs
  refine ⟨?_, ?_, hs⟩
  · unfold extract_gene_info
    exact sorted_sortEntries _
  · intro p
    unfold extract_gene_info
    exact filter_sortEntries p _

/-! ### Facts about the embedded regex searches -/

theorem takeLetters_letters : ∀ l, ∀ c ∈ takeLetters l, isAsciiLetter c = true
  | [], c => by simp [takeLetters]
  | x :: xs, c => by
    unfold takeLetters
    split
    · rename_i hx
      intro hc
      rcases List.mem_cons.mp hc with rfl | hmem
      · exact hx
      · exact takeLetters_letters xs c hmem
    · simp

theorem takeLetters_split : ∀ l : List Char, ∃ r, l = takeLetters l ++ r
  | [] => ⟨[], rfl⟩
  | x :: xs => by
    unfold takeLetters
    split
    · obtain ⟨r, hr⟩ := takeLetters_split xs
      exact ⟨r, by rw [List.cons_append, ← hr]⟩
    · exact ⟨x :: xs, rfl⟩

theorem takeLetters_cons_of_letter (c : Char) (cs : List Char)
    (h : isAsciiLetter c = true) : takeLetters (c :: cs) = c :: takeLetters cs := by
  simp only [takeLetters]
  rw [if_pos h]

theorem trnaAt_some (s g : List Char) (h : trnaAt s = some g) :
    ∃ rest, s = 't' :: 'R' :: 'N' :: 'A' :: '-' :: rest ∧
      takeLetters rest = g ∧ g ≠ [] := by
  unfold trnaAt at h
  split at h
  · rename_i rest
    split at h
    · cases h
    · rename_i hne
      injection h with h
      exact ⟨rest, rfl, h, by rw [← h] at *; exact hne⟩
  · cases h

theorem trnaAt_none_head (s : List Char) (h : trnaAt s = none) (c : Char)
    (b : List Char) (hs : s = 't' :: 'R' :: 'N' :: 'A' :: '-' :: c :: b) :
    isAsciiLetter c = false := by
  subst hs
  by_contra hc
  rw [Bool.not_eq_false] at hc
  simp only [trnaAt] at h
  rw [takeLetters_cons_of_letter c b hc] at h
  simp at h

theorem searchTRNA_none_iff : ∀ s, searchTRNA s = none ↔ ¬ tRNAOccurs s
  | [] => by
    constructor
    · rintro _ ⟨a, c, b, habs, _⟩
      exact absurd habs (by simp)
    · intro _
      rfl
  | c :: cs => by
    rw [searchTRNA]
    cases htr : trnaAt (c :: cs) with
    | some g =>
      simp only [reduceCtorEq, false_iff, not_not]
      obtain ⟨rest, hrest, hg, hne⟩ := trnaAt_some _ _ htr
      cases rest with
      | nil => exact absurd hg.symm (by simpa [takeLetters] using hne)
      | cons c0 b =>
        have hc0 : isAsciiLetter c0 = true := by
          by_contra hh
          rw [Bool.not_eq_true] at hh
          rw [show takeLetters (c0 :: b) = [] from by unfold takeLetters; simp [hh]] at hg
          exact hne hg.symm
        exact ⟨[], c0, b, by rw [hrest]; rfl, hc0⟩
    | none =>
      simp only []
      rw [searchTRNA_none_iff cs]
      constructor
      · rintro hno ⟨a, c0, b, heq, hl⟩
        cases a with
        | nil =>
          have := trnaAt_none_head _ htr c0 b (by simpa using heq)
          rw [this] at hl
          cases hl
        | cons x a' =>
          injection heq with h1 h2
          exact hno ⟨a', c0, b, h2, hl⟩
      · rintro hno ⟨a, c0, b, heq, hl⟩
        exact hno ⟨c :: a, c0, b, by rw [heq]; rfl, hl⟩

theorem searchTRNA_some_spec : ∀ s g, searchTRNA s = some g →
    g ≠ [] ∧ (∀ c ∈ g, isAsciiLetter c = true) ∧
      ∃ a b, s = a ++ 't' :: 'R' :: 'N' :: 'A' :: '-' :: (g ++ b)
  | [], g => by intro h; cases h
  | c :: cs, g => by
    intro h
    rw [searchTRNA] at h
    cases htr : trnaAt (c :: cs) with
    | some g' =>
      rw [htr] at h
      injection h with h
      subst h
      obtain ⟨rest, hrest, hg, hne⟩ := trnaAt_some _ _ htr
      obtain ⟨r, hr⟩ := takeLetters_split rest
      rw [hg] at hr
      refine ⟨hne, fun x hx => takeLetters_letters rest x (by rw [hg]; exact hx),
        [], r, ?_⟩
      rw [List.nil_append, hrest, hr]
    | none =>
      rw [htr] at h
      obtain ⟨hne, hlet, a, b, heq⟩ := searchTRNA_some_spec cs g h
      exact ⟨hne, hlet, c :: a, b, by rw [heq]; rfl⟩

theorem begWith_iff : ∀ p s : List Char, begWith p s = true ↔ ∃ t, s = p ++ t
  | [], s => by simp [begWith]
  | p :: ps, [] => by simp [begWith]
  | p :: ps, c :: cs => by
    simp only [begWith, Bool.and_eq_true, beq_iff_eq]
    rw [begWith_iff ps cs]
    constructor
    · rintro ⟨rfl, t, rfl⟩
      exact ⟨t, rfl⟩
    · rintro ⟨t, h⟩
      injection h with h1 h2
      exact ⟨h1.symm, t, h2⟩

theorem hasSub_iff : ∀ p s : List Char, hasSub p s = true ↔ ∃ a b, s = a ++ p ++ b
  | p, [] => by
    simp only [hasSub]
    rw [begWith_iff]
    constructor
    · rintro ⟨t, ht⟩
      rcases List.append_eq_nil.mp ht.symm with ⟨rfl, rfl⟩
      exact ⟨[], [], rfl⟩
    · rintro ⟨a, b, h⟩
      rcases List.append_eq_nil.mp (List.append_eq_nil.mp h.symm).1 with ⟨rfl, rfl⟩
      exact ⟨b, h⟩
  | p, c :: cs => by
    simp only [hasSub, Bool.or_eq_true]
    rw [begWith_iff, hasSub_iff p cs]
    constructor
    · rintro (⟨t, ht⟩ | ⟨a, b, h⟩)
      · exact ⟨[], t, by simp [ht]⟩
      · exact ⟨c :: a, b, by simp [h]⟩
    · rintro ⟨a, b, h⟩
      cases a with
      | nil => exact Or.inl ⟨b, by simpa using h⟩
      | cons x a' =>
        injection h with h1 h2
        exact Or.inr ⟨a', b, h2⟩

/-! ### The extractor on a single-feature record -/

theorem extract_single (i : String) (sq : List Char) (f : Feature)
    (h : recognizedType f.type = true) :
    (extract_gene_info ⟨i, sq, [f]⟩).ordered = [⟨f.start, featureName f⟩] := by
  simp [extract_gene_info, extractFold, extractStep, h, sortEntries, insertEntry]

theorem containsCI_iff (pat nm : String) :
    ContainsCI pat nm ↔ hasSub pat.data (nm.data.map Char.toLower) = true :=
  (hasSub_iff _ _).symm

/-- C3. For a tRNA feature the extractor's entry name is `fixTRNAName` of
the derived name; `fixTRNAName` leaves a name without an occurrence of
`tRNA-<letter>` unchanged, and otherwise rewrites it to `<letters>-tRNA`
where `<letters>` is the (nonempty, all-letter) group captured after an
occurrence of the literal `tRNA-`; in particular `tRNA-Leu` becomes
`Leu-tRNA` and `transfer RNA` stays unchanged. -/
theorem trna_naming_spec :
    (∀ (i : String) (sq : List Char) (p : Nat) (q : List (String × List String)),
        (extract_gene_info ⟨i, sq, [⟨"tRNA", p, q⟩]⟩).ordered =
          [⟨p, fixTRNAName (deriveName "tRNA" q)⟩])
  ∧ (∀ nm : String, ¬ tRNAOccurs nm.data → fixTRNAName nm = nm)
  ∧ (∀ nm : String, tRNAOccurs nm.data →
      ∃ g, searchTRNA nm.data = some g ∧ g ≠ [] ∧
        (∀ c ∈ g, isAsciiLetter c = true) ∧
        (∃ a b, nm.data = a ++ 't' :: 'R' :: 'N' :: 'A' :: '-' :: (g ++ b)) ∧
        fixTRNAName nm = String.mk g ++ "-tRNA")
  ∧ fixTRNAName "tRNA-Leu" = "Leu-tRNA"
  ∧ fixTRNAName "transfer RNA" = "transfer RNA" := by
  refine ⟨?_, ?_, ?_, by decide, by decide⟩
  · intro i sq p q
    rw [extract_single i sq ⟨"tRNA", p, q⟩ rfl]
    rfl
  · intro nm h
    simp [fixTRNAName, (searchTRNA_none_iff nm.data).mpr h]
  · intro nm h
    cases hs : searchTRNA nm.data with
    | none => exact absurd h ((searchTRNA_none_iff nm.data).mp hs)
    | some g =>
      obtain ⟨hne, hlet, a, b, heq⟩ := searchTRNA_some_spec nm.data g hs
      exact ⟨g, rfl, hne, hlet, ⟨a, b, heq⟩, by simp [fixTRNAName, hs]⟩

/-- Witness for C3: the theorem applied at concrete inputs — a tRNA feature
named `tRNA-Leu` yields entry `Leu-tRNA`; the matching branch fires on
`tRNA-Leu`; the no-match branch keeps `transfer RNA` unchanged. -/
theorem trna_naming_witness :
    (extract_gene_info ⟨"N", [], [⟨"tRNA", 7, [("gene", ["tRNA-Leu"])]⟩]⟩).ordered =
        [⟨7, "Leu-tRNA"⟩]
  ∧ (∃ g, searchTRNA "tRNA-Leu".data = some g ∧ g ≠ [] ∧
      (∀ c ∈ g, isAsciiLetter c = true) ∧
      (∃ a b, "tRNA-Leu".data = a ++ 't' :: 'R' :: 'N' :: 'A' :: '-' :: (g ++ b)) ∧
      fixTRNAName "tRNA-Leu" = String.mk g ++ "-tRNA")
  ∧ fixTRNAName "transfer RNA" = "transfer RNA" := by
  refine ⟨?_, ?_, ?_⟩
  · rw [trna_naming_spec.1 "N" [] 7 [("gene", ["tRNA-Leu"])]]
    decide
  · exact trna_naming_spec.2.2.1 "tRNA-Leu" ⟨[], 'L', ['e', 'u'], by decide, by decide⟩
  · exact trna_naming_spec.2.1 "transfer RNA"
      ((searchTRNA_none_iff _).mp (by decide))

/-- C4. For an rRNA feature the extractor's entry name is `fixRRNAName` of
the derived name; `fixRRNAName` forces `16S-rRNA` when the name contains
`16S` or `large` case-insensitively, else forces `12S-rRNA` when it
contains `12S` or `small` case-insensitively, else keeps it unchanged. -/
theorem rrna_naming_spec :
    (∀ (i : String) (sq : List Char) (p : Nat) (q : List (String × List String)),
        (extract_gene_info ⟨i, sq, [⟨"rRNA", p, q⟩]⟩).ordered =
          [⟨p, fixRRNAName (deriveName "rRNA" q)⟩])
  ∧ (∀ nm : String, ContainsCI "16s" nm ∨ ContainsCI "large" nm →
      fixRRNAName nm = "16S-rRNA")
  ∧ (∀ nm : String, ¬ (ContainsCI "16s" nm ∨ ContainsCI "large" nm) →
      (ContainsCI "12s" nm ∨ ContainsCI "small" nm) → fixRRNAName nm = "12S-rRNA")
  ∧ (∀ nm : String, ¬ (ContainsCI "16s" nm ∨ ContainsCI "large" nm) →
      ¬ (ContainsCI "12s" nm ∨ ContainsCI "small" nm) → fixRRNAName nm = nm) := by
  refine ⟨?_, ?_, ?_, ?_⟩
  · intro i sq p q
    rw [extract_single i sq ⟨"rRNA", p, q⟩ rfl]
    rfl
  · intro nm h
    have hc : (hasSub "16s".data (nm.data.map Char.toLower) ||
        hasSub "large".data (nm.data.map Char.toLower)) = true := by
      rcases h with h | h
      · exact Bool.or_eq_true_iff.mpr (Or.inl ((containsCI_iff _ _).mp h))
      · exact Bool.or_eq_true_iff.mpr (Or.inr ((containsCI_iff _ _).mp h))
    simp only [fixRRNAName]
    rw [if_pos hc]
  · intro nm h1 h2
    have hneg : ¬ ((hasSub "16s".data (nm.data.map Char.toLower) ||
        hasSub "large".data (nm.data.map Char.toLower)) = true) := by
      intro hb
      rcases Bool.or_eq_true_iff.mp hb with hb | hb
      · exact h1 (Or.inl ((containsCI_iff _ _).mpr hb))
      · exact h1 (Or.inr ((containsCI_iff _ _).mpr hb))
    have hc : (hasSub "12s".data (nm.data.map Char.toLower) ||
        hasSub "small".data (nm.data.map Char.toLower)) = true := by
      rcases h2 with h | h
      · exact Bool.or_eq_true_iff.mpr (Or.inl ((containsCI_iff _ _).mp h))
      · exact Bool.or_eq_true_iff.mpr (Or.inr ((containsCI_iff _ _).mp h))
    simp only [fixRRNAName]
    rw [if_neg hneg, if_pos hc]
  · intro nm h1 h2
    have hneg1 : ¬ ((hasSub "16s".data (nm.data.map Char.toLower) ||
        hasSub "large".data (nm.data.map Char.toLower)) = true) := by
      intro hb
      rcases Bool.or_eq_true_iff.mp hb with hb | hb
      · exact h1 (Or.inl ((containsCI_iff _ _).mpr hb))
      · exact h1 (Or.inr ((containsCI_iff _ _).mpr hb))
    have hneg2 : ¬ ((hasSub "12s".data (nm.data.map Char.toLower) ||
        hasSub "small".data (nm.data.map Char.toLower)) = true) := by
      intro hb
      rcases Bool.or_eq_true_iff.mp hb with hb | hb
      · exact h2 (Or.inl ((containsCI_iff _ _).mpr hb))
      · exact h2 (Or.inr ((containsCI_iff _ _).mpr hb))
    simp only [fixRRNAName]
    rw [if_neg hneg1, if_neg hneg2]

/-- Witness for C4: the theorem applied at concrete inputs — an rRNA
feature with product `16S ribosomal RNA` yields `16S-rRNA`; `LARGE subunit`
(case-insensitive) yields `16S-rRNA`; `small subunit` (which contains
neither `16S` nor `large`) yields `12S-rRNA`; `ribosomal RNA` is kept. -/
theorem rrna_naming_witness :
    (extract_gene_info ⟨"N", [], [⟨"rRNA", 3, [("product", ["16S ribosomal RNA"])]⟩]⟩).ordered =
        [⟨3, "16S-rRNA"⟩]
  ∧ fixRRNAName "LARGE subunit" = "16S-rRNA"
  ∧ fixRRNAName "small subunit" = "12S-rRNA"
  ∧ fixRRNAName "ribosomal RNA" = "ribosomal RNA" := by
  refine ⟨?_, ?_, ?_, ?_⟩
  · rw [rrna_naming_spec.1 "N" [] 3 [("product", ["16S ribosomal RNA"])]]
    decide
  · exact rrna_naming_spec.2.1 "LARGE subunit"
      (Or.inr ⟨"".data, " subunit".data, by decide⟩)
  · refine rrna_naming_spec.2.2.1 "small subunit" ?_
      (Or.inr ⟨"".data, " subunit".data, by decide⟩)
    rintro (h | h) <;> rw [containsCI_iff] at h <;> revert h <;> decide
  · refine rrna_naming_spec.2.2.2 "ribosomal RNA" ?_ ?_
    · rintro (h | h) <;> rw [containsCI_iff] at h <;> revert h <;> decide
    · rintro (h | h) <;> rw [containsCI_iff] at h <;> revert h <;> decide

/-- C5. The derived display name is the first `gene` qualifier value; if
the `gene` key is absent, the first `product` value; if both are absent,
the feature-type tag itself — and for a CDS feature (no renaming applies)
that derived name is exactly the extractor's entry name. -/
theorem name_fallback_spec :
    (∀ (ft : String) (q : List (String × List String)) (v : String) (vs : List String),
        qualLookup q "gene" = some (v :: vs) → deriveName ft q = v)
  ∧ (∀ (ft : String) (q : List (String × List String)) (v : String) (vs : List String),
        qualLookup q "gene" = none → qualLookup q "product" = some (v :: vs) →
          deriveName ft q = v)
  ∧ (∀ (ft : String) (q : List (String × List String)),
        qualLookup q "gene" = none → qualLookup q "product" = none →
          deriveName ft q = ft)
  ∧ (∀ (i : String) (sq : List Char) (p : Nat) (q : List (String × List String)),
        (extract_gene_info ⟨i, sq, [⟨"CDS", p, q⟩]⟩).ordered = [⟨p, deriveName "CDS" q⟩]) := by
  refine ⟨?_, ?_, ?_, ?_⟩
  · intro ft q v vs hg
    simp [deriveName, hg]
  · intro ft q v vs hg hp
    simp [deriveName, hg, hp]
  · intro ft q hg hp
    simp [deriveName, hg, hp]
  · intro i sq p q
    rw [extract_single i sq ⟨"CDS", p, q⟩ rfl]
    rfl

/-- Witness for C5: the theorem applied at concrete qualifier maps — with a
`gene` key the gene value wins; with only `product` the product value is
used; with neither the feature type is used. -/
theorem name_fallback_witness :
    deriveName "CDS" [("gene", ["nd1"]), ("product", ["NADH 1"])] = "nd1"
  ∧ deriveName "CDS" [("product", ["cox1"])] = "cox1"
  ∧ deriveName "tRNA" [] = "tRNA"
  ∧ (extract_gene_info ⟨"N", [], [⟨"CDS", 0, []⟩]⟩).ordered = [⟨0, "CDS"⟩] := by
  refine ⟨?_, ?_, ?_, ?_⟩
  · exact name_fallback_spec.1 "CDS" [("gene", ["nd1"]), ("product", ["NADH 1"])]
      "nd1" [] (by decide)
  · exact name_fallback_spec.2.1 "CDS" [("product", ["cox1"])] "cox1" []
      (by decide) (by decide)
  · exact name_fallback_spec.2.2.1 "tRNA" [] (by decide) (by decide)
  · rw [name_fallback_spec.2.2.2 "N" [] 0 []]
    decide

/-! ### Facts about the renderer -/

theorem strAppendEmpty (s : String) : s ++ "" = s := by
  apply String.ext
  simp [String.data_append]

theorem strContains_iff_hasSub (pat s : String) :
    StrContains pat s ↔ hasSub pat.data s.data = true := by
  rw [hasSub_iff]
  constructor
  · rintro ⟨a, b, rfl⟩
    exact ⟨a.data, b.data, by simp [String.data_append]⟩
  · rintro ⟨a, b, hab⟩
    refine ⟨String.mk a, String.mk b, String.ext ?_⟩
    simpa [String.data_append] using hab

theorem joinSep_three (s a b c : String) : joinSep s [a, b, c] = a ++ s ++ b ++ s ++ c := by
  simp [joinSep, String.append_assoc]

theorem render_eq (r : Record) (info : GeneInfo) :
    generate_manuscript_summary r info =
      ("In the present study, we report the sequence of " ++ r.id ++
        ", which spans " ++ fmtComma r.seq.length ++
        " base pairs and exhibits a GC content of " ++ fmt2f (calc_gc r.seq) ++ "%.") ++
      "\n\n" ++
      ("Automated annotation identified " ++ Nat.repr info.counts.cds ++
        " protein-coding sequences (CDSs), " ++ Nat.repr info.counts.trna ++
        " transfer RNA genes, and " ++ Nat.repr info.counts.rrna ++
        " ribosomal RNA genes, for a total of " ++ Nat.repr info.total ++
        " functional gene features. This gene complement is consistent with " ++
        "values reported for similar taxa.") ++
      "\n\n" ++
      ("Analysis of gene synteny revealed the following linear arrangement: " ++
        joinSep "; " (info.ordered.map GeneEntry.name) ++
        ". Notably, the clustering of rRNA genes suggests conservation of " ++
        "the ribosomal operon structure.") := by
  simp only [generate_manuscript_summary]
  rw [joinSep_three]

theorem renderer_paragraphs (r : Record) (info : GeneInfo) :
    ∃ p1 p2 p3 : String,
      generate_manuscript_summary r info = p1 ++ "\n\n" ++ p2 ++ "\n\n" ++ p3
      ∧ StrContains (fmtComma r.seq.length ++ " base pairs") p1
      ∧ StrContains (fmt2f (calc_gc r.seq) ++ "%") p1
      ∧ StrContains (Nat.repr info.counts.cds ++ " protein-coding sequences") p2
      ∧ StrContains (Nat.repr info.counts.trna ++ " transfer RNA genes") p2
      ∧ StrContains (Nat.repr info.counts.rrna ++ " ribosomal RNA genes") p2
      ∧ StrContains ("total of " ++ Nat.repr info.total) p2
      ∧ StrContains (joinSep "; " (info.ordered.map GeneEntry.name)) p3 := by
  refine ⟨_, _, _, render_eq r info, ?_, ?_, ?_, ?_, ?_, ?_, ?_⟩
  · refine ⟨"In the present study, we report the sequence of " ++ r.id ++ ", which spans ",
      " and exhibits a GC content of " ++ fmt2f (calc_gc r.seq) ++ "%.", ?_⟩
    rw [show " base pairs and exhibits a GC content of " =
      " base pairs" ++ " and exhibits a GC content of " from rfl]
    simp only [String.append_assoc]
  · refine ⟨"In the present study, we report the sequence of " ++ r.id ++
      ", which spans " ++ fmtComma r.seq.length ++
      " base pairs and exhibits a GC content of ", ".", ?_⟩
    rw [show "%." = "%" ++ "." from rfl]
    simp only [String.append_assoc]
  · refine ⟨"Automated annotation identified ",
      " (CDSs), " ++ Nat.repr info.counts.trna ++
      " transfer RNA genes, and " ++ Nat.repr info.counts.rrna ++
      " ribosomal RNA genes, for a total of " ++ Nat.repr info.total ++
      " functional gene features. This gene complement is consistent with " ++
      "values reported for similar taxa.", ?_⟩
    rw [show " protein-coding sequences (CDSs), " =
      " protein-coding sequences" ++ " (CDSs), " from rfl]
    simp only [String.append_assoc]
  · refine ⟨"Automated annotation identified " ++ Nat.repr info.counts.cds ++
      " protein-coding sequences (CDSs), ",
      ", and " ++ Nat.repr info.counts.rrna ++
      " ribosomal RNA genes, for a total of " ++ Nat.repr info.total ++
      " functional gene features. This gene complement is consistent with " ++
      "values reported for similar taxa.", ?_⟩
    rw [show " transfer RNA genes, and " = " transfer RNA genes" ++ ", and " from rfl]
    simp only [String.append_assoc]
  · refine ⟨"Automated annotation identified " ++ Nat.repr info.counts.cds ++
      " protein-coding sequences (CDSs), " ++ Nat.repr info.counts.trna ++
      " transfer RNA genes, and ",
      ", for a total of " ++ Nat.repr info.total ++
      " functional gene features. This gene complement is consistent with " ++
      "values reported for similar taxa.", ?_⟩
    rw [show " ribosomal RNA genes, for a total of " =
      " ribosomal RNA genes" ++ ", for a total of " from rfl]
    simp only [String.append_assoc]
  · refine ⟨"Automated annotation identified " ++ Nat.repr info.counts.cds ++
      " protein-coding sequences (CDSs), " ++ Nat.repr info.counts.trna ++
      " transfer RNA genes, and " ++ Nat.repr info.counts.rrna ++
      " ribosomal RNA genes, for a ",
      " functional gene features. This gene complement is consistent with " ++
      "values reported for similar taxa.", ?_⟩
    rw [show " ribosomal RNA genes, for a total of " =
      " ribosomal RNA genes, for a " ++ "total of " from rfl]
    simp only [String.append_assoc]
  · refine ⟨"Analysis of gene synteny revealed the following linear arrangement: ",
      ". Notably, the clustering of rRNA genes suggests conservation of " ++
      "the ribosomal operon structure.", ?_⟩
    simp only [String.append_assoc]

theorem strEmptyAppend (s : String) : "" ++ s = s := by
  apply String.ext
  rw [String.data_append]
  rfl

set_option maxRecDepth 1000000 in
unseal Rat.mul Rat.add Rat.sub Rat.inv in
/-- C7. The renderer returns three paragraphs joined by a blank line;
paragraph 1 contains the comma-grouped length followed by ` base pairs` and
the two-decimal GC percentage followed by `%`; paragraph 2 contains the
three counts and the total with their fixed labels; paragraph 3 contains
the ordered names joined by `; ` — and on the concrete example (length
1,000, GC 50%, counts 2/1/1, names A, 16S-rRNA, Leu-tRNA, B) the output
contains the literal fragments the claim lists. -/
theorem renderer_spec :
    (∀ (r : Record) (info : GeneInfo), ∃ p1 p2 p3 : String,
      generate_manuscript_summary r info = p1 ++ "\n\n" ++ p2 ++ "\n\n" ++ p3
      ∧ StrContains (fmtComma r.seq.length ++ " base pairs") p1
      ∧ StrContains (fmt2f (calc_gc r.seq) ++ "%") p1
      ∧ StrContains (Nat.repr info.counts.cds ++ " protein-coding sequences") p2
      ∧ StrContains (Nat.repr info.counts.trna ++ " transfer RNA genes") p2
      ∧ StrContains (Nat.repr info.counts.rrna ++ " ribosomal RNA genes") p2
      ∧ StrContains ("total of " ++ Nat.repr info.total) p2
      ∧ StrContains (joinSep "; " (info.ordered.map GeneEntry.name)) p3)
  ∧ StrContains "1,000 base pairs" (generate_manuscript_summary exRecord1000 exInfo)
  ∧ StrContains "50.00%" (generate_manuscript_summary exRecord1000 exInfo)
  ∧ StrContains "2 protein-coding sequences" (generate_manuscript_summary exRecord1000 exInfo)
  ∧ StrContains "1 transfer RNA genes" (generate_manuscript_summary exRecord1000 exInfo)
  ∧ StrContains "1 ribosomal RNA genes" (generate_manuscript_summary exRecord1000 exInfo)
  ∧ StrContains "total of 4" (generate_manuscript_summary exRecord1000 exInfo)
  ∧ StrContains "A; 16S-rRNA; Leu-tRNA; B"
      (generate_manuscript_summary exRecord1000 exInfo) := by
  refine ⟨renderer_paragraphs, ?_, ?_, ?_, ?_, ?_, ?_, ?_⟩ <;>
    rw [strContains_iff_hasSub] <;> decide

/-- C9. The renderer is a total function of its inputs in this embedding,
and with an empty ordered gene list its output contains the literal
`arrangement: .` — the synteny lead-in followed by the empty join and the
closing period. -/
theorem renderer_empty_spec (r : Record) (info : GeneInfo) (h : info.ordered = []) :
    StrContains "arrangement: ." (generate_manuscript_summary r info) := by
  rw [render_eq]
  have hnames : info.ordered.map GeneEntry.name = [] := by rw [h]; rfl
  rw [hnames]
  refine ⟨("In the present study, we report the sequence of " ++ r.id ++
      ", which spans " ++ fmtComma r.seq.length ++
      " base pairs and exhibits a GC content of " ++ fmt2f (calc_gc r.seq) ++ "%.") ++
    "\n\n" ++
    ("Automated annotation identified " ++ Nat.repr info.counts.cds ++
      " protein-coding sequences (CDSs), " ++ Nat.repr info.counts.trna ++
      " transfer RNA genes, and " ++ Nat.repr info.counts.rrna ++
      " ribosomal RNA genes, for a total of " ++ Nat.repr info.total ++
      " functional gene features. This gene complement is consistent with " ++
      "values reported for similar taxa.") ++
    "\n\n" ++ "Analysis of gene synteny revealed the following linear ",
    " Notably, the clustering of rRNA genes suggests conservation of " ++
      "the ribosomal operon structure.", ?_⟩
  rw [show "Analysis of gene synteny revealed the following linear arrangement: " =
      "Analysis of gene synteny revealed the following linear " ++ "arrangement: "
      from rfl,
    show ". Notably, the clustering of rRNA genes suggests conservation of " =
      "." ++ " Notably, the clustering of rRNA genes suggests conservation of "
      from rfl,
    show "arrangement: ." = "arrangement: " ++ "." from rfl,
    show joinSep "; " ([] : List String) = "" from rfl]
  simp only [String.append_assoc, strEmptyAppend, strAppendEmpty]

/-- Witness for C9: the theorem applied to a record with no recognized
genes — its summary contains the literal `arrangement: .`. -/
theorem renderer_empty_witness :
    StrContains "arrangement: ." (generate_manuscript_summary exRecA ⟨⟨0, 0, 0⟩, [], 0⟩) :=
  renderer_empty_spec exRecA ⟨⟨0, 0, 0⟩, [], 0⟩ rfl

/-- The two-record join of the batch driver in closed form. -/
theorem batch_join_two (r1 r2 : Record) : combineSummaries [r1, r2] =
    Except.ok ("\n\n" ++ generate_manuscript_summary r1 (extract_gene_info r1) ++
      (sepLine ++ "\n\n") ++ generate_manuscript_summary r2 (extract_gene_info r2)) := by
  simp [combineSummaries, joinSep, String.append_assoc]

set_option maxRecDepth 1000000 in
unseal Rat.mul Rat.add Rat.sub Rat.inv in
/-- C8 (amended). The batch driver fails with the verbatim message
`No records found in file.` exactly when there are no records; for two
records it prepends a blank line and joins the two summaries with the
80-`=` string followed by a blank line — the `=` run starts immediately
after the last character of the first summary (not on a line of its own),
and occurs exactly once in the combined output of the example records. -/
theorem batch_join_amended :
    (∀ rs : List Record,
      combineSummaries rs = Except.error "No records found in file." ↔ rs = [])
  ∧ (∀ r1 r2 : Record, combineSummaries [r1, r2] =
      Except.ok ("\n\n" ++ generate_manuscript_summary r1 (extract_gene_info r1) ++
        (sepLine ++ "\n\n") ++ generate_manuscript_summary r2 (extract_gene_info r2)))
  ∧ subCount (List.replicate 80 '=')
      (((combineSummaries [exRecA, exRecB]).toOption.getD "").data) = 1 := by
  refine ⟨?_, batch_join_two, ?_⟩
  · intro rs
    cases rs with
    | nil => simp [combineSummaries]
    | cons r t => simp [combineSummaries]
  · rw [show (combineSummaries [exRecA, exRecB]).toOption.getD "" =
      "\n\n" ++ generate_manuscript_summary exRecA (extract_gene_info exRecA) ++
        (sepLine ++ "\n\n") ++ generate_manuscript_summary exRecB (extract_gene_info exRecB)
      from by rw [batch_join_two exRecA exRecB]; rfl]
    decide

/-- Witness for C8: the theorem applied at concrete inputs — the empty
record list yields the verbatim failure, and the two example records yield
the glued-separator join. -/
theorem batch_join_witness :
    combineSummaries [] = Except.error "No records found in file."
  ∧ combineSummaries [exRecA, exRecB] =
      Except.ok ("\n\n" ++ generate_manuscript_summary exRecA (extract_gene_info exRecA) ++
        (sepLine ++ "\n\n") ++ generate_manuscript_summary exRecB (extract_gene_info exRecB)) :=
  ⟨(batch_join_amended.1 []).mpr rfl, batch_join_amended.2.1 exRecA exRecB⟩

set_option maxRecDepth 1000000 in
unseal Rat.mul Rat.add Rat.sub Rat.inv in
/-- Counterexample for C8 as stated: for the two example records the
combined output has NO line consisting of exactly 80 `=` characters (the
`=` run shares its line with the last sentence of the first summary), so
it does not contain exactly one such separator line. -/
theorem batch_sep_line_counterexample :
    (combineSummaries [exRecA, exRecB]).toOption.map
      (fun out => (linesOf out.data).count (List.replicate 80 '=')) = some 0 := by
  decide

/-- C10. The display is updated only when every record's summary was
produced successfully: on any failure (a parser error, or the zero-records
failure) the display component of the load action's result is exactly the
old display, and only the error dialog carries the failure text. -/
theorem load_display_spec :
    (∀ (pr : Except String (List Record)) (display e : String),
        processFile pr = Except.error e → (load_file pr display).1 = display)
  ∧ (∀ (pr : Except String (List Record)) (display out : String),
        processFile pr = Except.ok out → load_file pr display = (display ++ out, none))
  ∧ (∀ display : String, load_file (Except.ok []) display =
        (display, some "Failed to process file:\nNo records found in file."))
  ∧ (∀ (err display : String), load_file (Except.error err) display =
        (display, some ("Failed to process file:\n" ++ err))) := by
  refine ⟨?_, ?_, ?_, ?_⟩
  · intro pr display e h
    simp [load_file, h]
  · intro pr display out h
    simp [load_file, h]
  · intro display
    rfl
  · intro err display
    rfl

/-- Witness for C10: the theorem applied at concrete inputs — a parser
failure and the zero-records failure both leave the display unchanged. -/
theorem load_display_witness :
    load_file (Except.error "boom") "D" = ("D", some "Failed to process file:\nboom")
  ∧ (load_file (Except.ok []) "D").1 = "D"
  ∧ load_file (Except.ok []) "D" =
      ("D", some "Failed to process file:\nNo records found in file.") := by
  refine ⟨load_display_spec.2.2.2 "boom" "D", ?_, load_display_spec.2.2.1 "D"⟩
  exact load_display_spec.1 (Except.ok []) "D" "No records found in file." rfl
